import Mathlib

/-!
Shallow embedding of the title-parsing engine in src/parser.js
(TorBox-App/parse-torrent-title).

JS strings are modelled as lists of characters; JS numbers that can go
negative (the title end boundary) as Int; fallible lookups as Option.
Every regular expression in the source is a fixed constant, so each one is
hand-compiled here into an explicit matching function over List Char whose
doc comment quotes the regex it implements, including the greedy /
leftmost-first behaviour of the JS engine that is observable through
String.prototype.replace and String.prototype.match.
-/

namespace PTT

/-- A JS string, modelled as a list of characters. -/
abbrev JStr := List Char

/-- JS word character, the regex class backslash-w: [A-Za-z0-9_]. -/
def isWordChar (c : Char) : Bool :=
  ('a' ≤ c && c ≤ 'z') || ('A' ≤ c && c ≤ 'Z') || ('0' ≤ c && c ≤ '9') || c == '_'

/-- ASCII letter, the regex class [a-zA-Z]. -/
def isAsciiLetter (c : Char) : Bool :=
  ('a' ≤ c && c ≤ 'z') || ('A' ≤ c && c ≤ 'Z')

/-- NON_ENGLISH_CHARS from parser.js: the ranges
u3040-u30ff, u3400-u4dbf, u4e00-u9fff, uf900-ufaff, uff66-uff9f, u0400-u04ff. -/
def isNonEnglishChar (c : Char) : Bool :=
  (0x3040 ≤ c.toNat && c.toNat ≤ 0x30ff) ||
  (0x3400 ≤ c.toNat && c.toNat ≤ 0x4dbf) ||
  (0x4e00 ≤ c.toNat && c.toNat ≤ 0x9fff) ||
  (0xf900 ≤ c.toNat && c.toNat ≤ 0xfaff) ||
  (0xff66 ≤ c.toNat && c.toNat ≤ 0xff9f) ||
  (0x0400 ≤ c.toNat && c.toNat ≤ 0x04ff)

/-- Cyrillic character, the range u0400-u04ff used by RUSSIAN_CAST_REGEX. -/
def isCyrillicChar (c : Char) : Bool :=
  0x400 ≤ c.toNat && c.toNat ≤ 0x4ff

/-- True when the list contains no newline; regex dot does not match a newline. -/
def noNewlineB (l : JStr) : Bool := l.all (fun c => c != '\n')

/-- Whitespace removed by JS String.prototype.trim. -/
def isJsWhitespace (c : Char) : Bool :=
  c == ' ' || c == '\t' || c == '\n' || c == '\r' || c == '\x0B' || c == '\x0C' ||
  c.toNat == 0xa0 || c.toNat == 0x1680 || (0x2000 ≤ c.toNat && c.toNat ≤ 0x200a) ||
  c.toNat == 0x2028 || c.toNat == 0x2029 || c.toNat == 0x202f || c.toNat == 0x205f ||
  c.toNat == 0x3000 || c.toNat == 0xfeff

/-- JS String.prototype.trim. -/
def jsTrim (s : JStr) : JStr :=
  ((s.dropWhile isJsWhitespace).reverse.dropWhile isJsWhitespace).reverse

/-- Global replace with "" of a regex of the shape startClass-run anchored at
the start alternated with endClass-run anchored at the end: it removes the
maximal leading run of characters satisfying isStart and the maximal trailing
run of characters satisfying isEnd. -/
def stripStartEnd (isStart isEnd : Char → Bool) (s : JStr) : JStr :=
  ((s.dropWhile isStart).reverse.dropWhile isEnd).reverse

/-- Character disallowed at the start by NOT_ALLOWED_SYMBOLS_AT_START_AND_END:
the negated class of word chars, non-English chars, and the symbols number
sign, left square bracket, left lenticular bracket, and black star. -/
def disallowedStart1 (c : Char) : Bool :=
  !(isWordChar c || isNonEnglishChar c || c == '#' || c == '[' || c == '【' || c == '★')

/-- Character disallowed at the end by NOT_ALLOWED_SYMBOLS_AT_START_AND_END:
space, hyphen, colon, slash, backslash, left square bracket, pipe, left brace,
left paren, number sign, dollar, ampersand, caret. -/
def disallowedEnd1 (c : Char) : Bool :=
  c == ' ' || c == '-' || c == ':' || c == '/' || c == '\\' || c == '[' ||
  c == '|' || c == '{' || c == '(' || c == '#' || c == '$' || c == '&' || c == '^'

/-- Character disallowed at the start by
REMAINING_NOT_ALLOWED_SYMBOLS_AT_START_AND_END: the negated class of word
chars, non-English chars and the number sign. -/
def disallowedStart2 (c : Char) : Bool :=
  !(isWordChar c || isNonEnglishChar c || c == '#')

/-- Character disallowed at the end by
REMAINING_NOT_ALLOWED_SYMBOLS_AT_START_AND_END: square brackets, left paren,
braces, space. -/
def disallowedEnd2 (c : Char) : Bool :=
  c == '[' || c == ']' || c == '(' || c == '{' || c == '}' || c == ' '

/-- Does the movie-marker regex, case-insensitive bracket-movie-bracket
(one of left square bracket or left paren, the letters m o v i e, one of
right paren or right square bracket) match at the head of the list? -/
def movieMarkerAt (s : JStr) : Bool :=
  match s with
  | a :: b :: c :: d :: e :: f :: g :: _ =>
    (a == '[' || a == '(') && (b.toLower == 'm') && (c.toLower == 'o') &&
    (d.toLower == 'v') && (e.toLower == 'i') && (f.toLower == 'e') &&
    (g == ')' || g == ']')
  | _ => false

/-- Non-global replace with "" of the movie-marker regex: the leftmost
occurrence (7 characters) is removed. -/
def removeMovieMarker : JStr → JStr
  | [] => []
  | c :: rest =>
    if movieMarkerAt (c :: rest) then rest.drop 6
    else c :: removeMovieMarker rest

/-- First alternative of RUSSIAN_CAST_REGEX at absolute position i:
a left paren, then non-right-paren characters containing at least one
Cyrillic character, then a right paren that is the last character of the
string. -/
def russianAlt1At (s : JStr) (i : Nat) : Bool :=
  match s.drop i with
  | '(' :: rest =>
    (match s.getLast? with | some d => d == ')' | none => false) &&
    rest.dropLast.all (fun c => c != ')') && rest.dropLast.any isCyrillicChar
  | _ => false

/-- Second alternative of RUSSIAN_CAST_REGEX at absolute position i: a
lookbehind requiring a slash before i with no newline between it and i, then
a left paren, then any non-newline characters, then a right paren that is the
last character of the string. -/
def russianAlt2At (s : JStr) (i : Nat) : Bool :=
  (let before := s.take i
   before.contains '/' && noNewlineB (before.reverse.takeWhile (fun c => c != '/'))) &&
  (match s.drop i with
   | '(' :: rest =>
     (match rest.getLast? with | some d => d == ')' | none => false) &&
     noNewlineB rest.dropLast
   | _ => false)

/-- Non-global replace with "" of RUSSIAN_CAST_REGEX: the leftmost position
where either alternative matches starts a match that extends to the end of
the string, so everything from that position on is removed. -/
def removeRussianCast (s : JStr) : JStr :=
  match (List.range s.length).find? (fun i => russianAlt1At s i || russianAlt2At s i) with
  | some i => s.take i
  | none => s

/-- Opening marker class: left square bracket, left lenticular bracket, black star. -/
def isOpenMark (c : Char) : Bool := c == '[' || c == '【' || c == '★'

/-- Closing marker class: right square bracket, right lenticular bracket, black star. -/
def isCloseMark (c : Char) : Bool := c == ']' || c == '】' || c == '★'

/-- Continuation of the leading-group regex after its closing marker at index
j: an optional single space or dot, then at least one non-newline character;
the replacement keeps exactly the characters matched by the final greedy
dot-plus group together with everything after the whole match, which
collapses to a drop. Returns none when the continuation cannot match. -/
def leadGroupContAt (s : JStr) (j : Nat) : Option JStr :=
  match (s.drop (j+1)).head? with
  | none => none
  | some c =>
    if c == '\n' then none
    else if c == ' ' || c == '.' then
      match (s.drop (j+2)).head? with
      | some d => if d != '\n' then some (s.drop (j+2)) else some (s.drop (j+1))
      | none => some (s.drop (j+1))
    else some (s.drop (j+1))

/-- Non-global replace with the first group of the leading-marked-section
regex (anchored at the start: an opening marker, a greedy non-newline run, a
closing marker, an optional space or dot, then the kept group): the greedy
run backtracks from the rightmost closing marker reachable without crossing a
newline. -/
def stripLeadingGroup (s : JStr) : JStr :=
  match s with
  | [] => []
  | c :: _ =>
    if isOpenMark c then
      let cands := ((List.range s.length).filter (fun j =>
        j != 0 &&
        (match (s.drop j).head? with | some d => isCloseMark d | none => false) &&
        noNewlineB ((s.drop 1).take (j-1)))).reverse
      match cands.findSome? (fun j => leadGroupContAt s j) with
      | some res => res
      | none => s
    else s

/-- Does the tail of the trailing-marked-section regex match starting with an
opening marker at index p: the opening marker, a greedy non-newline run, and
a closing marker that is the last character of the string? -/
def trailOpenAt (s : JStr) (p : Nat) : Bool :=
  match (s.drop p).head? with
  | some c =>
    isOpenMark c && decide ((s.drop p).length ≥ 2) &&
    (match s.getLast? with | some d => isCloseMark d | none => false) &&
    noNewlineB ((s.drop (p+1)).dropLast)
  | none => false

/-- Continuation of the trailing-marked-section regex after the kept group
ends at index k: an optional single space or dot (tried first, as the regex
is greedy), then the marked tail reaching the end of the string. -/
def trailContAt (s : JStr) (k : Nat) : Bool :=
  (match (s.drop (k+1)).head? with
   | some c => (c == ' ' || c == '.') && trailOpenAt s (k+2)
   | none => false) || trailOpenAt s (k+1)

/-- Search for the kept-group end index of the trailing-marked-section regex:
the match must start on a line (leftmost start position), the greedy group
takes the largest end index k inside that line whose continuation matches;
when a line admits no such k the search moves to the next line. -/
def trailSearch (s : JStr) : Nat → Nat → Option Nat
  | 0, _ => none
  | fuel+1, i =>
    if i ≥ s.length then none
    else if (s.drop i).head? == some '\n' then trailSearch s fuel (i+1)
    else
      let runLen := ((s.drop i).takeWhile (fun c => c != '\n')).length
      match (((List.range runLen).map (i + ·)).reverse).find? (fun k => trailContAt s k) with
      | some k => some k
      | none => trailSearch s fuel (i + runLen)

/-- Non-global replace with the first group of the trailing-marked-section
regex (a greedy kept group, an optional space or dot, an opening marker, a
non-newline run, a closing marker at the end): because the whole match
extends to the end of the string and the replacement is the kept group, the
result is a prefix of the input. -/
def stripTrailingGroup (s : JStr) : JStr :=
  match trailSearch s (s.length + 1) 0 with
  | some k => s.take (k+1)
  | none => s

/-- Slash or pipe. -/
def isSlashPipe (c : Char) : Bool := c == '/' || c == '|'

/-- Slash, pipe or left paren. -/
def isSlashPipeParen (c : Char) : Bool := c == '/' || c == '|' || c == '('

/-- Index of the last non-English character of the list, if any. -/
def lastNonEnglishIdx (l : JStr) : Option Nat :=
  match l.reverse.findIdx? isNonEnglishChar with
  | some j => some (l.length - 1 - j)
  | none => none

/-- Match length at the head of s of the first ALT_TITLES_REGEX alternative:
a run of characters other than slash, pipe and left paren containing at least
one non-English character, then a possibly longer run of characters other
than slash and pipe, then a slash or pipe. The greedy engine ends the match
at the first slash or pipe after the initial run. -/
def altTitles1Len (s : JStr) : Option Nat :=
  let r1 := s.takeWhile (fun c => !isSlashPipeParen c)
  if r1.any isNonEnglishChar then
    match (s.drop r1.length).findIdx? isSlashPipe with
    | some idx => some (r1.length + idx + 1)
    | none => none
  else none

/-- Match length at the head of s of the second ALT_TITLES_REGEX alternative:
a slash or pipe, then a run of characters other than slash, pipe and left
paren containing at least one non-English character, then greedily all
following characters other than slash and pipe (the greedy engine restarts
the final run after the last non-English character of the initial run). -/
def altTitles2Len (s : JStr) : Option Nat :=
  match s with
  | c :: rest =>
    if isSlashPipe c then
      let r2 := rest.takeWhile (fun d => !isSlashPipeParen d)
      match lastNonEnglishIdx r2 with
      | some jrel =>
        let p := 1 + jrel
        some (p + 1 + ((s.drop (p+1)).takeWhile (fun d => !isSlashPipe d)).length)
      | none => none
    else none
  | [] => none

/-- Match length of ALT_TITLES_REGEX at the head of s: the first alternative
is tried before the second. -/
def altTitlesLenAt (s : JStr) : Option Nat :=
  match altTitles1Len s with
  | some n => some n
  | none => altTitles2Len s

/-- Global replace with "" of ALT_TITLES_REGEX: repeated leftmost matching,
continuing after each removed match. -/
def altTitlesGo : Nat → JStr → JStr
  | 0, s => s
  | fuel+1, s =>
    match altTitlesLenAt s with
    | some n => altTitlesGo fuel (s.drop n)
    | none =>
      match s with
      | [] => []
      | c :: rest => c :: altTitlesGo fuel rest

/-- Global replace with "" of ALT_TITLES_REGEX on the whole string. -/
def removeAltTitles (s : JStr) : JStr := altTitlesGo s.length s

/-- Lookbehind of the first NOT_ONLY_NON_ENGLISH_REGEX alternative on the
prefix before the match: an ASCII letter followed by at least one character,
all of them non-non-English, reaching exactly to the match position. -/
def noeLookbehind (pre : JStr) : Bool :=
  (List.range pre.length).any (fun j =>
    decide (j + 1 < pre.length) &&
    (match (pre.drop j).head? with | some c => isAsciiLetter c | none => false) &&
    (pre.drop (j+1)).all (fun c => !isNonEnglishChar c))

/-- Lookahead of the second NOT_ONLY_NON_ENGLISH_REGEX alternative on the
suffix after the match: at least one non-non-English character and then an
ASCII letter. -/
def noeLookahead (post : JStr) : Bool :=
  (List.range post.length).any (fun k =>
    decide (1 ≤ k) &&
    (match (post.drop k).head? with | some c => isAsciiLetter c | none => false) &&
    (post.take k).all (fun c => !isNonEnglishChar c))

/-- Match length of the first NOT_ONLY_NON_ENGLISH_REGEX alternative at
position i of s: the lookbehind, a non-English character at i, a greedy
non-newline run, and a final non-English character; the greedy run ends at
the last non-English character inside the line starting after i. -/
def noeAlt1LenAt (s : JStr) (i : Nat) : Option Nat :=
  match (s.drop i).head? with
  | some c =>
    if isNonEnglishChar c && noeLookbehind (s.take i) then
      match lastNonEnglishIdx ((s.drop (i+1)).takeWhile (fun d => d != '\n')) with
      | some jrel => some (jrel + 2)
      | none => none
    else none
  | none => none

/-- Match length of the second NOT_ONLY_NON_ENGLISH_REGEX alternative at
position i of s: a non-English character at i, a greedy non-newline run, a
final non-English character, and the lookahead after it; the greedy run
backtracks from the last non-English character of the line until the
lookahead succeeds. -/
def noeAlt2LenAt (s : JStr) (i : Nat) : Option Nat :=
  match (s.drop i).head? with
  | some c =>
    if isNonEnglishChar c then
      let line := (s.drop (i+1)).takeWhile (fun d => d != '\n')
      let cands := ((List.range line.length).filter (fun j =>
        match (line.drop j).head? with
        | some d => isNonEnglishChar d
        | none => false)).reverse
      match cands.find? (fun j => noeLookahead (s.drop (i + 1 + j + 1))) with
      | some j => some (j + 2)
      | none => none
    else none
  | none => none

/-- Match length of NOT_ONLY_NON_ENGLISH_REGEX at position i of s: the first
alternative is tried before the second. -/
def noeLenAt (s : JStr) (i : Nat) : Option Nat :=
  match noeAlt1LenAt s i with
  | some n => some n
  | none => noeAlt2LenAt s i

/-- Global replace with "" of NOT_ONLY_NON_ENGLISH_REGEX: a walk over the
original string (the lookarounds inspect the original string), skipping
matched spans and keeping other characters. -/
def noeGo (s : JStr) : Nat → Nat → JStr
  | 0, _ => []
  | fuel+1, i =>
    if i ≥ s.length then []
    else
      match noeLenAt s i with
      | some len => noeGo s fuel (i + len)
      | none =>
        match (s.drop i).head? with
        | some c => c :: noeGo s fuel (i + 1)
        | none => []

/-- Global replace with "" of NOT_ONLY_NON_ENGLISH_REGEX on the whole string. -/
def removeNotOnlyNonEnglish (s : JStr) : JStr := noeGo s (s.length + 1) 0

/-- cleanTitle from parser.js: the fixed sanitizer pipeline, applied in
source order to the title slice. -/
def cleanTitle (rawTitle : JStr) : JStr :=
  let t1 := if !(rawTitle.contains ' ') && rawTitle.contains '.' then
      rawTitle.map (fun c => if c == '.' then ' ' else c)
    else rawTitle
  let t2 := t1.map (fun c => if c == '_' then ' ' else c)
  let t3 := removeMovieMarker t2
  let t4 := stripStartEnd disallowedStart1 disallowedEnd1 t3
  let t5 := removeRussianCast t4
  let t6 := stripLeadingGroup t5
  let t7 := stripTrailingGroup t6
  let t8 := removeAltTitles t7
  let t9 := removeNotOnlyNonEnglish t8
  let t10 := stripStartEnd disallowedStart2 disallowedEnd2 t9
  jsTrim t10

/-- A value stored in the result map. Stored values are strings; the empty
string is the falsy string of JS. -/
abbrev Value := JStr

/-- The result map: field name to stored value, insertion ordered. -/
abbrev ResultMap := List (String × Value)

/-- Entry of the matched registry: raw matched text and its start index. -/
structure MatchedEntry where
  rawMatch : JStr
  matchIndex : Nat
deriving DecidableEq

/-- The matched registry: field name to first-match data, insertion ordered. -/
abbrev MatchedMap := List (String × MatchedEntry)

/-- JS property read result-name, as an Option. -/
def lookupR (m : ResultMap) (k : String) : Option Value :=
  (m.find? (fun e => e.1 == k)).map (fun e => e.2)

/-- JS property write on the result map: replace the binding if present,
append it otherwise. -/
def setR : ResultMap → String → Value → ResultMap
  | [], k, v => [(k, v)]
  | e :: rest, k, v => if e.1 == k then (k, v) :: rest else e :: setR rest k v

/-- JS property read on the matched registry. -/
def lookupM (m : MatchedMap) (k : String) : Option MatchedEntry :=
  (m.find? (fun e => e.1 == k)).map (fun e => e.2)

/-- The write-once assignment matched-name equals matched-name or new-entry. -/
def writeOnce (m : MatchedMap) (k : String) (e : MatchedEntry) : MatchedMap :=
  match lookupM m k with
  | some _ => m
  | none => m ++ [(k, e)]

/-- JS truthiness of a possibly-absent string value. -/
def truthyVal : Option Value → Bool
  | some v => !v.isEmpty
  | none => false

/-- Result of title.match(regExp) for a non-global regex: the whole matched
text, the optional first capturing group, and the match start index. -/
structure RegExpMatch where
  rawMatch : JStr
  cleanMatch : Option JStr
  index : Nat
deriving DecidableEq

/-- A regular expression is modelled by its observable behaviour through
title.match: the first match on a given string, if any. -/
abbrev Matcher := JStr → Option RegExpMatch

/-- A transformer: receives the clean (or raw) match and the current result
value for the field, returns the value to store; the empty string is the
falsy veto. -/
abbrev Transformer := Value → Option Value → Value

/-- The match outcome a handler returns to the parse loop. -/
structure MatchOutcome where
  rawMatch : JStr
  matchIndex : Nat
  remove : Bool
  skipFromTitle : Bool
deriving DecidableEq

/-- A handler: receives the working title, the result map and the matched
registry, and returns the optional match outcome together with the (possibly
mutated) result map and matched registry. -/
abbrev Handler := JStr → ResultMap → MatchedMap → Option MatchOutcome × ResultMap × MatchedMap

/-- Options of a pattern handler after extendOptions (all fields present;
value is the optional fixed literal, absent by default). -/
structure HandlerOptions where
  skipIfAlreadyFound : Bool
  skipFromTitle : Bool
  skipIfFirst : Bool
  skipIfBefore : List String
  remove : Bool
  value : Option Value

/-- DEFAULT_OPTIONS from parser.js. -/
def DEFAULT_OPTIONS : HandlerOptions :=
  { skipIfAlreadyFound := true
    skipFromTitle := false
    skipIfFirst := false
    skipIfBefore := []
    remove := false
    value := none }

/-- An options record as supplied by a caller: only some keys present. -/
structure PartialOptions where
  skipIfAlreadyFound : Option Bool := none
  skipFromTitle : Option Bool := none
  skipIfFirst : Option Bool := none
  skipIfBefore : Option (List String) := none
  remove : Option Bool := none
  value : Option Value := none

/-- extendOptions from parser.js: spread DEFAULT_OPTIONS then the supplied
record (spreading undefined adds nothing). -/
def extendOptions : Option PartialOptions → HandlerOptions
  | none => DEFAULT_OPTIONS
  | some p =>
    { skipIfAlreadyFound := p.skipIfAlreadyFound.getD true
      skipFromTitle := p.skipFromTitle.getD false
      skipIfFirst := p.skipIfFirst.getD false
      skipIfBefore := p.skipIfBefore.getD []
      remove := p.remove.getD false
      value := p.value }

/-- The regex caret left-bracket group right-bracket used for the
before-title check: when the title starts with a left square bracket followed
by at least one non-bracket character and a right square bracket, return the
group between the brackets. -/
def leadingBracketGroup (title : JStr) : Option JStr :=
  match title with
  | '[' :: rest =>
    let run := rest.takeWhile (fun c => !(c == '[' || c == ']'))
    if !run.isEmpty && (rest.drop run.length).head? == some ']' then some run
    else none
  | _ => none

/-- Is pat a leading segment of s (character-wise)? -/
def listStartsWith : JStr → JStr → Bool
  | [], _ => true
  | _ :: _, [] => false
  | a :: as, b :: bs => a == b && listStartsWith as bs

/-- Index of the first occurrence of pat inside s (JS String.indexOf). -/
def firstSubIndex (pat : JStr) : JStr → Option Nat
  | [] => if pat.isEmpty then some 0 else none
  | c :: rest =>
    if listStartsWith pat (c :: rest) then some 0
    else (firstSubIndex pat rest).map (fun i => i + 1)

/-- JS String.prototype.includes. -/
def containsSub (s pat : JStr) : Bool := (firstSubIndex pat s).isSome

/-- The matcher of a regex that matches a fixed literal string with no
capturing group: the first occurrence, as title.match would report it. -/
def literalMatcher (pat : JStr) : Matcher := fun title =>
  (firstSubIndex pat title).map (fun i => { rawMatch := pat, cleanMatch := none, index := i })

/-- The skipIfFirst condition computed in createHandlerFromRegExp: there is
at least one entry of the matched registry for another field, and the current
match index is strictly below the match index of every such entry. -/
def skipFirstCond (name : String) (idx : Nat) (matched : MatchedMap) : Bool :=
  let otherMatches := matched.filter (fun e => e.1 != name)
  !otherMatches.isEmpty && otherMatches.all (fun e => decide (idx < e.2.matchIndex))

/-- cleanMatch or rawMatch: the first capturing group when present and
truthy, the whole match otherwise. -/
def cleanOrRaw (m : RegExpMatch) : Value :=
  match m.cleanMatch with
  | some c => if c.isEmpty then m.rawMatch else c
  | none => m.rawMatch

/-- options.value or transformed: the configured literal when truthy, the
transformer output otherwise. -/
def storedValue (v : Option Value) (transformed : Value) : Value :=
  match v with
  | some w => if w.isEmpty then transformed else w
  | none => transformed

/-- createHandlerFromRegExp from parser.js, line by line. The regex is
represented by its match behaviour; an empty whole match is falsy in JS, so
it is treated as no match, exactly as the source's if-rawMatch test does. -/
def createHandlerFromRegExp (name : String) (regExp : Matcher)
    (transformer : Transformer) (options : HandlerOptions) : Handler :=
  fun title result matched =>
    if truthyVal (lookupR result name) && options.skipIfAlreadyFound then
      (none, result, matched)
    else
      match regExp title with
      | none => (none, result, matched)
      | some m =>
        if m.rawMatch.isEmpty then (none, result, matched)
        else
          let transformed := transformer (cleanOrRaw m) (lookupR result name)
          let isBeforeTitle :=
            match leadingBracketGroup title with
            | some g => containsSub g m.rawMatch
            | none => false
          let isSkipIfFirst := options.skipIfFirst && skipFirstCond name m.index matched
          let isSkipIfBefore := options.skipIfBefore.any (fun group =>
            match lookupM matched group with
            | some mi => decide (m.index < mi.matchIndex)
            | none => false)
          if !transformed.isEmpty && !isSkipIfFirst && !isSkipIfBefore then
            (some { rawMatch := m.rawMatch
                    matchIndex := m.index
                    remove := options.remove
                    skipFromTitle := isBeforeTitle || options.skipFromTitle },
             setR result name (storedValue options.value transformed),
             writeOnce matched name { rawMatch := m.rawMatch, matchIndex := m.index })
          else (none, result, matched)

/-- Modelled from the spec: the transformer named none imported from
"./transformers" (that file is not part of src). Section 4.1 of the spec
describes it as an identity-like pass-through that returns the cleaned match
unchanged when no custom transform is supplied. -/
def noneTransformer : Transformer := fun v _ => v

/-- An identity transformer supplied by a caller (used in concrete runs). -/
def idT : Transformer := fun v _ => v

/-- First argument of addHandler: a string name, a raw handler function, or
undefined. -/
inductive NameArg where
  | str (s : String)
  | fn (h : Handler)
  | undef

/-- Second argument of addHandler: a regular expression, a raw handler
function, undefined, or any other value (carrying its JS typeof string). -/
inductive MatcherArg where
  | regexp (m : Matcher)
  | fn (h : Handler)
  | undef
  | other (typeName : String)

/-- Third argument of addHandler: a transformer function, an options record
(the shape exercised by C3), or undefined. -/
inductive TransformerArg where
  | fn (t : Transformer)
  | obj (o : PartialOptions)
  | undef

/-- Fourth argument of addHandler: an options record or undefined. -/
inductive OptionsArg where
  | obj (o : PartialOptions)
  | undef

/-- The function pushed on this.handlers together with the handlerName
property the source sets on it (never read by parse). -/
structure NamedHandler where
  handlerName : NameArg
  run : Handler

/-- Result of addHandler: the pushed handler, or the thrown configuration
error. -/
inductive AddHandlerResult where
  | ok (h : NamedHandler)
  | err (msg : String)

/-- JS typeof of the second addHandler argument. -/
def typeofMatcherArg : MatcherArg → String
  | .regexp _ => "object"
  | .fn _ => "function"
  | .undef => "undefined"
  | .other t => t

/-- Text interpolated for the first addHandler argument in the error message. -/
def nameArgText : NameArg → String
  | .str s => s
  | .fn _ => "function"
  | .undef => "undefined"

/-- addHandler from parser.js: the four branches in source order. In the
regexp branch the source first reassigns transformer (to the given function,
or to the none transformer), so the following typeof-transformer-is-object
test is always false and extendOptions always receives the fourth argument. -/
def addHandler (handlerName : NameArg) (handler : MatcherArg)
    (transformer : TransformerArg) (options : OptionsArg) : AddHandlerResult :=
  match handlerName, handler with
  | .fn f, .undef => .ok { handlerName := .str "unknown", run := f }
  | .str s, .regexp m =>
    let t : Transformer := match transformer with | .fn t => t | _ => noneTransformer
    let opts := extendOptions (match options with | .obj o => some o | .undef => none)
    .ok { handlerName := .str s, run := createHandlerFromRegExp s m t opts }
  | n, .fn f => .ok { handlerName := n, run := f }
  | n, h =>
    .err ("Handler for " ++ nameArgText n ++
      " should be a RegExp or a function. Got: " ++ typeofMatcherArg h)

/-- Is the matcher argument a regular expression or a callable? (The shapes
the registration API accepts, per the spec.) -/
def matcherAcceptable : MatcherArg → Bool
  | .regexp _ => true
  | .fn _ => true
  | .undef => false
  | .other _ => false

/-- Replace of underscore-plus globally by a single space, the pre-pass of
parse. The flag records whether the previous character was an underscore
(i.e. the run already emitted its space). -/
def collapseUnderscoresAux : Bool → JStr → JStr
  | _, [] => []
  | inRun, c :: rest =>
    if c == '_' then
      if inRun then collapseUnderscoresAux true rest
      else ' ' :: collapseUnderscoresAux true rest
    else c :: collapseUnderscoresAux false rest

/-- title.replace of underscore-plus (global) with a single space. -/
def collapseUnderscores (s : JStr) : JStr := collapseUnderscoresAux false s

/-- The mutable locals of Parser.parse: working title, result map, matched
registry and the title end boundary (an Int: the source arithmetic can drive
it below zero). -/
structure ParseState where
  title : JStr
  result : ResultMap
  matched : MatchedMap
  endOfTitle : Int

/-- The three if statements of the parse loop body applied to a match
outcome, in source order: splice out the raw match when remove is set; lower
the boundary to the match index when skipFromTitle is false, the index is
truthy (nonzero) and below the boundary; subtract the raw match length from
the boundary when remove and skipFromTitle are both set and the index is
below the boundary. -/
def applyMatchResult (st : ParseState) : Option MatchOutcome → ParseState
  | none => st
  | some r =>
    let title :=
      if r.remove then st.title.take r.matchIndex ++ st.title.drop (r.matchIndex + r.rawMatch.length)
      else st.title
    let e1 :=
      if !r.skipFromTitle && r.matchIndex != 0 && decide ((r.matchIndex : Int) < st.endOfTitle) then
        (r.matchIndex : Int)
      else st.endOfTitle
    let e2 :=
      if r.remove && r.skipFromTitle && decide ((r.matchIndex : Int) < e1) then
        e1 - (r.rawMatch.length : Int)
      else e1
    { st with title := title, endOfTitle := e2 }

/-- One iteration of the parse loop: invoke the handler on the current
context (it may mutate result and matched), then apply its match outcome. -/
def parseStep (st : ParseState) (h : Handler) : ParseState :=
  let out := h st.title st.result st.matched
  applyMatchResult { st with result := out.2.1, matched := out.2.2 } out.1

/-- The parse loop over the handler list, in registration order. -/
def parseLoop : List Handler → ParseState → ParseState
  | [], st => st
  | h :: hs, st => parseLoop hs (parseStep st h)

/-- JS title.slice(0, endOfTitle) for an Int endpoint: a negative endpoint
counts from the end of the string and clamps at zero. -/
def jsSliceUpTo (s : JStr) (e : Int) : JStr :=
  if e < 0 then s.take (max ((s.length : Int) + e) 0).toNat else s.take e.toNat

/-- The initial parse context: underscore runs collapsed, empty maps, the
boundary at the normalized length. -/
def initState (rawTitle : JStr) : ParseState :=
  let t := collapseUnderscores rawTitle
  { title := t, result := [], matched := [], endOfTitle := (t.length : Int) }

/-- Parser.parse from parser.js: the pre-pass, the handler loop, then the
final assignment of the sanitized title slice into the result map. -/
def parse (handlers : List Handler) (rawTitle : JStr) : ResultMap :=
  let st := parseLoop handlers (initState rawTitle)
  setR st.result "title" (cleanTitle (jsSliceUpTo st.title st.endOfTitle))

/-! Concrete pattern handlers used in closed runs of the engine. -/

/-- A default-options handler for field f1 matching the literal c. -/
def negH1 : Handler := createHandlerFromRegExp "f1" (literalMatcher ['c']) idT DEFAULT_OPTIONS

/-- A remove-and-skipFromTitle handler for field f2 matching the literal bcXYZ. -/
def negH2 : Handler := createHandlerFromRegExp "f2" (literalMatcher "bcXYZ".toList) idT
  { DEFAULT_OPTIONS with remove := true, skipFromTitle := true }

/-- A default-options handler for field f1 matching the literal a. -/
def zeroIdxH : Handler := createHandlerFromRegExp "f1" (literalMatcher ['a']) idT DEFAULT_OPTIONS

/-- A default-options handler for field f1 matching the literal b. -/
def oneIdxH : Handler := createHandlerFromRegExp "f1" (literalMatcher ['b']) idT DEFAULT_OPTIONS

/-- A default-options handler for the field title matching the literal 4k. -/
def titleFieldH : Handler := createHandlerFromRegExp "title" (literalMatcher "4k".toList) idT DEFAULT_OPTIONS

/-- A default-options handler for the field year matching the literal 2020. -/
def yearH1 : Handler := createHandlerFromRegExp "year" (literalMatcher "2020".toList) idT DEFAULT_OPTIONS

/-- A default-options handler for the field year matching the literal 20. -/
def yearH2 : Handler := createHandlerFromRegExp "year" (literalMatcher "20".toList) idT DEFAULT_OPTIONS

/-- A remove handler for field res matching the literal space-4k. -/
def removeH : Handler := createHandlerFromRegExp "res" (literalMatcher " 4k".toList) idT
  { DEFAULT_OPTIONS with remove := true }

/-- A handler for field res whose options carry the empty string as value. -/
def emptyValueH : Handler := createHandlerFromRegExp "res" (literalMatcher "4k".toList) idT
  { DEFAULT_OPTIONS with value := some [] }

/-- A handler for field res2 whose options carry the literal value UHD. -/
def uhdValueH : Handler := createHandlerFromRegExp "res2" (literalMatcher "4k".toList) idT
  { DEFAULT_OPTIONS with value := some "UHD".toList }

/-- A matched registry holding one entry for a field named other at index 5. -/
def otherMat : MatchedMap := [("other", { rawMatch := ['z'], matchIndex := 5 })]

/-! General lemmas about the embedded engine, shared by the claim theorems. -/

/-- Writing a key and reading it back yields the written value. -/
theorem lookupR_setR_self (m : ResultMap) (k : String) (v : Value) :
    lookupR (setR m k v) k = some v := by
  induction m with
  | nil => simp [setR, lookupR, List.find?]
  | cons e rest ih =>
    by_cases he : (e.1 == k) = true
    · simp [setR, he, lookupR, List.find?]
    · simp only [setR, he, if_false, Bool.false_eq_true]
      simp only [lookupR, List.find?, he] at ih ⊢
      exact ih

/-- Writing one key leaves the lookup of a different key unchanged. -/
theorem lookupR_setR_of_ne (m : ResultMap) (k k2 : String) (v : Value) (hk : k ≠ k2) :
    lookupR (setR m k v) k2 = lookupR m k2 := by
  have hkb : (k == k2) = false := beq_eq_false_iff_ne.mpr hk
  induction m with
  | nil => simp [setR, lookupR, List.find?, hkb]
  | cons e rest ih =>
    by_cases he : (e.1 == k) = true
    · have he2 : (e.1 == k2) = false := by
        have : e.1 = k := eq_of_beq he
        rw [this]; exact hkb
      simp [setR, he, lookupR, List.find?, hkb, he2]
    · simp only [setR, he, if_false, Bool.false_eq_true]
      by_cases he2 : (e.1 == k2) = true
      · simp [lookupR, List.find?, he2]
      · simp only [lookupR, List.find?] at ih ⊢
        simp only [he2, Bool.false_eq_true, if_false, cond_false] at ih ⊢
        exact ih

/-- applyMatchResult does not touch the result map. -/
theorem applyMatchResult_result (st : ParseState) (o : Option MatchOutcome) :
    (applyMatchResult st o).result = st.result := by
  cases o <;> rfl

/-- applyMatchResult does not touch the matched registry. -/
theorem applyMatchResult_matched (st : ParseState) (o : Option MatchOutcome) :
    (applyMatchResult st o).matched = st.matched := by
  cases o <;> rfl

/-- applyMatchResult never increases the end boundary. -/
theorem applyMatchResult_endOfTitle_le (st : ParseState) (o : Option MatchOutcome) :
    (applyMatchResult st o).endOfTitle ≤ st.endOfTitle := by
  cases o with
  | none => exact le_refl _
  | some r =>
    by_cases hc1 : (!r.skipFromTitle && r.matchIndex != 0 &&
        decide ((r.matchIndex : Int) < st.endOfTitle)) = true
    · have hlt : (r.matchIndex : Int) < st.endOfTitle :=
        of_decide_eq_true ((Bool.and_eq_true _ _).mp hc1).2
      simp only [applyMatchResult, hc1, if_true]
      split
      · omega
      · omega
    · rw [Bool.not_eq_true] at hc1
      simp only [applyMatchResult, hc1, Bool.false_eq_true, if_false]
      split
      · omega
      · omega

/-- The result map after a parse step is the one the handler returned. -/
theorem parseStep_result (st : ParseState) (h : Handler) :
    (parseStep st h).result = (h st.title st.result st.matched).2.1 := by
  unfold parseStep
  exact applyMatchResult_result _ _

/-- The matched registry after a parse step is the one the handler returned. -/
theorem parseStep_matched (st : ParseState) (h : Handler) :
    (parseStep st h).matched = (h st.title st.result st.matched).2.2 := by
  unfold parseStep
  exact applyMatchResult_matched _ _

/-- A parse step never increases the end boundary. -/
theorem parseStep_endOfTitle_le (st : ParseState) (h : Handler) :
    (parseStep st h).endOfTitle ≤ st.endOfTitle :=
  applyMatchResult_endOfTitle_le _ _

/-- The parse loop never increases the end boundary. -/
theorem parseLoop_endOfTitle_le (hs : List Handler) (st : ParseState) :
    (parseLoop hs st).endOfTitle ≤ st.endOfTitle := by
  induction hs generalizing st with
  | nil => exact le_refl _
  | cons h rest ih => exact le_trans (ih (parseStep st h)) (parseStep_endOfTitle_le st h)

/-- The value stored on an accepted match is truthy whenever the transformer
output is. -/
theorem storedValue_not_empty (ov : Option Value) (tv : Value) (h : tv.isEmpty = false) :
    (storedValue ov tv).isEmpty = false := by
  cases ov with
  | none => exact h
  | some w =>
    simp only [storedValue]
    split
    · exact h
    · rename_i hw
      exact Bool.of_not_eq_true hw

/-- Inversion of an accepting run of a pattern handler: the result map is the
old one with a truthy transformer output (possibly replaced by the configured
literal) written under the handler's field. -/
theorem createHandler_accept_inv {n : String} {m : Matcher} {t : Transformer}
    {o : HandlerOptions} {title : JStr} {res : ResultMap} {mat : MatchedMap}
    {r : MatchOutcome} {res' : ResultMap} {mat' : MatchedMap}
    (hacc : createHandlerFromRegExp n m t o title res mat = (some r, res', mat')) :
    ∃ tv, tv.isEmpty = false ∧ res' = setR res n (storedValue o.value tv) := by
  simp only [createHandlerFromRegExp] at hacc
  split at hacc
  · simp at hacc
  · split at hacc
    · simp at hacc
    · split at hacc
      · simp at hacc
      · split at hacc
        · rename_i hguard
          have htv := ((Bool.and_eq_true _ _).mp ((Bool.and_eq_true _ _).mp hguard).1).1
          rw [Bool.not_eq_eq_eq_not, Bool.not_true] at htv
          have hres := (Prod.ext_iff.mp (Prod.ext_iff.mp hacc).2).1
          exact ⟨_, htv, hres.symm⟩
        · simp at hacc

/-! The claim theorems. -/

/-- C1, counterexample: with two genuine pattern handlers (one lowering the
boundary to 2, then a remove-and-skipFromTitle handler whose raw match has
length 5 and index 1) the end boundary of the pipeline reaches -3, refuting
the claim that the boundary never becomes negative and that the final slice
offset is always at least 0. -/
theorem boundary_can_go_negative :
    (parseLoop [negH1, negH2] (initState "abcXYZ".toList)).endOfTitle = -3 := by decide

/-- C1, amended: the title end boundary starts at the length of the
normalized input and is monotonically non-increasing after each handler
invocation and across the whole pipeline (but it can become negative). -/
theorem boundary_monotone_from_length :
    (∀ rawTitle : JStr,
      (initState rawTitle).endOfTitle = ((collapseUnderscores rawTitle).length : Int)) ∧
    (∀ (st : ParseState) (h : Handler), (parseStep st h).endOfTitle ≤ st.endOfTitle) ∧
    (∀ (hs : List Handler) (st : ParseState), (parseLoop hs st).endOfTitle ≤ st.endOfTitle) :=
  ⟨fun _ => rfl, parseStep_endOfTitle_le, parseLoop_endOfTitle_le⟩

/-- C2, counterexample: a handler whose match outcome has skipFromTitle false
and start index 0 (strictly below the boundary 3) does not lower the
boundary: the source tests the truthiness of matchIndex, and 0 is falsy, so
the boundary stays 3 instead of dropping to 0. -/
theorem boundary_not_lowered_at_index_zero :
    (zeroIdxH "abc".toList [] []).1 =
      some { rawMatch := ['a'], matchIndex := 0, remove := false, skipFromTitle := false } ∧
    (parseLoop [zeroIdxH] (initState "abc".toList)).endOfTitle = 3 ∧
    (3 : Int) ≠ 0 := by decide

/-- C2, amended: when a handler returns a match outcome with skipFromTitle
false and a nonzero start index strictly below the current end boundary, the
parse step lowers the boundary exactly to that start index. -/
theorem boundary_lowered_to_nonzero_matchIndex (st : ParseState) (h : Handler)
    (r : MatchOutcome) (res : ResultMap) (mat : MatchedMap)
    (hh : h st.title st.result st.matched = (some r, res, mat))
    (hskip : r.skipFromTitle = false) (hnz : r.matchIndex ≠ 0)
    (hlt : (r.matchIndex : Int) < st.endOfTitle) :
    (parseStep st h).endOfTitle = (r.matchIndex : Int) := by
  unfold parseStep
  rw [hh]
  simp [applyMatchResult, hskip, hnz, hlt]

/-- C2, witness for the amended theorem at a concrete input: a handler
matching the literal b at index 1 of abc lowers the boundary from 3 to 1. -/
theorem boundary_lowered_to_nonzero_matchIndex_witness :
    (parseStep (initState "abc".toList) oneIdxH).endOfTitle = ((1 : Nat) : Int) :=
  boundary_lowered_to_nonzero_matchIndex (initState "abc".toList) oneIdxH
    { rawMatch := ['b'], matchIndex := 1, remove := false, skipFromTitle := false }
    [("f1", ['b'])] [("f1", { rawMatch := ['b'], matchIndex := 1 })]
    (by decide) rfl (by decide) (by decide)

/-- C3: a call addHandler(name, regexp, opts) whose third argument is an
options record constructs exactly the handler built from the none transformer
and DEFAULT_OPTIONS, and is indistinguishable from the call that supplies no
third and fourth argument at all: the record in transformer position has no
effect. -/
theorem options_in_transformer_position_ignored (s : String) (m : Matcher) (o : PartialOptions) :
    addHandler (.str s) (.regexp m) (.obj o) .undef =
      .ok { handlerName := .str s,
            run := createHandlerFromRegExp s m noneTransformer DEFAULT_OPTIONS } ∧
    addHandler (.str s) (.regexp m) (.obj o) .undef =
      addHandler (.str s) (.regexp m) .undef .undef :=
  ⟨rfl, rfl⟩

/-- C4, counterexample: for the field named title the claim fails: the first
of two identical pattern handlers for the field title matches abc 4k and
stores 4k, the second is skipped, but after parse the result map holds the
sanitized title slice abc, not the first handler's stored value 4k. -/
theorem first_value_overwritten_for_title_field :
    (titleFieldH (initState "abc 4k".toList).title [] []).1.isSome = true ∧
    (titleFieldH (initState "abc 4k".toList).title [] []).2.1 = [("title", "4k".toList)] ∧
    lookupR (parse [titleFieldH, titleFieldH] "abc 4k".toList) "title" = some "abc".toList ∧
    ("abc".toList : Value) ≠ "4k".toList := by decide

/-- C4, amended: for a field other than title, given two pattern handlers for
the same field where the second has skipIfAlreadyFound true, if the first
accepts a match on the initial context then the second handler's invocation
is a no-op and the parse result holds the first handler's stored value. -/
theorem first_handler_wins_for_other_fields (n : String) (hn : n ≠ "title")
    (m1 m2 : Matcher) (t1 t2 : Transformer) (o1 o2 : HandlerOptions)
    (ho2 : o2.skipIfAlreadyFound = true) (rawTitle : JStr)
    (r1 : MatchOutcome) (res1 : ResultMap) (mat1 : MatchedMap)
    (hacc : createHandlerFromRegExp n m1 t1 o1 (initState rawTitle).title [] [] =
      (some r1, res1, mat1)) :
    createHandlerFromRegExp n m2 t2 o2
        (parseStep (initState rawTitle) (createHandlerFromRegExp n m1 t1 o1)).title res1 mat1 =
      (none, res1, mat1) ∧
    lookupR (parse [createHandlerFromRegExp n m1 t1 o1,
        createHandlerFromRegExp n m2 t2 o2] rawTitle) n = lookupR res1 n := by
  obtain ⟨tv, htv, hres⟩ := createHandler_accept_inv hacc
  have hlook : lookupR res1 n = some (storedValue o1.value tv) := by
    rw [hres]; exact lookupR_setR_self _ _ _
  have htruthy : truthyVal (lookupR res1 n) = true := by
    rw [hlook]
    simp [truthyVal, storedValue_not_empty o1.value tv htv]
  have hskip2 : ∀ ttl, createHandlerFromRegExp n m2 t2 o2 ttl res1 mat1 = (none, res1, mat1) := by
    intro ttl
    simp only [createHandlerFromRegExp]
    rw [htruthy, ho2]
    simp
  have hrun1 : (createHandlerFromRegExp n m1 t1 o1) (initState rawTitle).title
      (initState rawTitle).result (initState rawTitle).matched = (some r1, res1, mat1) := hacc
  have hst1res : (parseStep (initState rawTitle) (createHandlerFromRegExp n m1 t1 o1)).result = res1 := by
    rw [parseStep_result, hrun1]
  have hst1mat : (parseStep (initState rawTitle) (createHandlerFromRegExp n m1 t1 o1)).matched = mat1 := by
    rw [parseStep_matched, hrun1]
  refine ⟨hskip2 _, ?_⟩
  have h2run : (createHandlerFromRegExp n m2 t2 o2)
      (parseStep (initState rawTitle) (createHandlerFromRegExp n m1 t1 o1)).title
      (parseStep (initState rawTitle) (createHandlerFromRegExp n m1 t1 o1)).result
      (parseStep (initState rawTitle) (createHandlerFromRegExp n m1 t1 o1)).matched =
      (none, res1, mat1) := by
    rw [hst1res, hst1mat]
    exact hskip2 _
  have hst2res : (parseStep (parseStep (initState rawTitle) (createHandlerFromRegExp n m1 t1 o1))
      (createHandlerFromRegExp n m2 t2 o2)).result = res1 := by
    rw [parseStep_result, h2run]
  show lookupR (setR (parseStep (parseStep (initState rawTitle) (createHandlerFromRegExp n m1 t1 o1))
      (createHandlerFromRegExp n m2 t2 o2)).result "title" _) n = lookupR res1 n
  rw [hst2res]
  exact lookupR_setR_of_ne _ _ _ _ (Ne.symm hn)

/-- C4, witness for the amended theorem at a concrete input: two handlers for
the field year on the input ab 2020; the first stores 2020, the second is a
no-op, and the final result still holds 2020 under year. -/
theorem first_handler_wins_for_other_fields_witness :
    yearH2 (parseStep (initState "ab 2020".toList) yearH1).title
        [("year", "2020".toList)] [("year", { rawMatch := "2020".toList, matchIndex := 3 })] =
      (none, [("year", "2020".toList)], [("year", { rawMatch := "2020".toList, matchIndex := 3 })]) ∧
    lookupR (parse [yearH1, yearH2] "ab 2020".toList) "year" =
      lookupR [("year", "2020".toList)] "year" :=
  first_handler_wins_for_other_fields "year" (by decide)
    (literalMatcher "2020".toList) (literalMatcher "20".toList) idT idT
    DEFAULT_OPTIONS DEFAULT_OPTIONS rfl "ab 2020".toList
    { rawMatch := "2020".toList, matchIndex := 3, remove := false, skipFromTitle := false }
    [("year", "2020".toList)] [("year", { rawMatch := "2020".toList, matchIndex := 3 })]
    (by decide)

/-- C5: when a handler's match outcome has remove set, the parse step updates
the working title to the text before the match start concatenated with the
text after the matched span (everything outside the span is preserved, the
span is excised), and the loop runs every later handler from exactly that
updated state. -/
theorem remove_excises_matched_span (st : ParseState) (h : Handler) (rest : List Handler)
    (r : MatchOutcome) (res : ResultMap) (mat : MatchedMap)
    (hh : h st.title st.result st.matched = (some r, res, mat))
    (hrem : r.remove = true) :
    (parseStep st h).title =
      st.title.take r.matchIndex ++ st.title.drop (r.matchIndex + r.rawMatch.length) ∧
    parseLoop (h :: rest) st = parseLoop rest (parseStep st h) := by
  constructor
  · unfold parseStep
    rw [hh]
    simp [applyMatchResult, hrem]
  · rfl

/-- C5, witness at a concrete input: a remove handler matching space-4k at
index 2 of ab 4k cd leaves the later handlers the shortened title ab cd. -/
theorem remove_excises_matched_span_witness :
    (parseStep (initState "ab 4k cd".toList) removeH).title =
      (initState "ab 4k cd".toList).title.take 2 ++
        (initState "ab 4k cd".toList).title.drop (2 + (" 4k".toList).length) ∧
    parseLoop [removeH] (initState "ab 4k cd".toList) =
      parseLoop [] (parseStep (initState "ab 4k cd".toList) removeH) :=
  remove_excises_matched_span (initState "ab 4k cd".toList) removeH []
    { rawMatch := " 4k".toList, matchIndex := 2, remove := true, skipFromTitle := false }
    [("res", " 4k".toList)] [("res", { rawMatch := " 4k".toList, matchIndex := 2 })]
    (by decide) rfl

/-- C6: a pattern handler with skipIfFirst set is a no-op exactly when the
candidate match exists and skipFirstCond holds of it (some other field is
already in the matched registry and the match index is strictly below the
match index of every such field); when skipFirstCond fails, or there is no
match at all, the handler behaves exactly as the same handler with
skipIfFirst unset. -/
theorem skipIfFirst_semantics (n : String) (m : Matcher) (t : Transformer)
    (o : HandlerOptions) (title : JStr) (res : ResultMap) (mat : MatchedMap) :
    (∀ rm, m title = some rm → skipFirstCond n rm.index mat = true →
      createHandlerFromRegExp n m t { o with skipIfFirst := true } title res mat =
        (none, res, mat)) ∧
    (∀ rm, m title = some rm → skipFirstCond n rm.index mat = false →
      createHandlerFromRegExp n m t { o with skipIfFirst := true } title res mat =
        createHandlerFromRegExp n m t { o with skipIfFirst := false } title res mat) ∧
    (m title = none →
      createHandlerFromRegExp n m t { o with skipIfFirst := true } title res mat =
        createHandlerFromRegExp n m t { o with skipIfFirst := false } title res mat) := by
  refine ⟨?_, ?_, ?_⟩
  · intro rm hrm hcond
    simp only [createHandlerFromRegExp, hrm]
    split
    · rfl
    · simp [hcond]
  · intro rm hrm hcond
    simp only [createHandlerFromRegExp, hrm]
    simp [hcond]
  · intro hnone
    simp only [createHandlerFromRegExp, hnone]

/-- C6, witness at a concrete input: with another field already matched at
index 5 and a candidate match at index 0, the skipIfFirst handler is a
no-op. -/
theorem skipIfFirst_semantics_witness :
    createHandlerFromRegExp "f" (literalMatcher ['a']) idT
        { DEFAULT_OPTIONS with skipIfFirst := true } "abc".toList [] otherMat =
      (none, [], otherMat) :=
  (skipIfFirst_semantics "f" (literalMatcher ['a']) idT DEFAULT_OPTIONS
      "abc".toList [] otherMat).1
    { rawMatch := ['a'], cleanMatch := none, index := 0 } (by decide) (by decide)

/-- C7, counterexample: a handler whose options carry the empty string as the
configured value accepts a match, yet the stored entry is the transformer
output 4k, not the configured literal: the source combines them with JS or,
so a falsy literal does not override. -/
theorem empty_literal_value_not_stored :
    (emptyValueH "ab 4k".toList [] []).1.isSome = true ∧
    (emptyValueH "ab 4k".toList [] []).2.1 = [("res", "4k".toList)] ∧
    ("4k".toList : Value) ≠ ([] : Value) := by decide

/-- C7, amended: when the configured literal value is present and non-empty
(truthy), every accepted match stores exactly that literal under the
handler's field, whatever the transformer returned. -/
theorem nonempty_literal_value_overrides (n : String) (m : Matcher) (t : Transformer)
    (o : HandlerOptions) (title : JStr) (res : ResultMap) (mat : MatchedMap)
    (r : MatchOutcome) (res' : ResultMap) (mat' : MatchedMap) (v : Value)
    (hv : o.value = some v) (hvne : v.isEmpty = false)
    (hacc : createHandlerFromRegExp n m t o title res mat = (some r, res', mat')) :
    lookupR res' n = some v := by
  obtain ⟨tv, htv, hres⟩ := createHandler_accept_inv hacc
  rw [hres, lookupR_setR_self]
  simp [storedValue, hv, hvne]

/-- C7, witness for the amended theorem at a concrete input: a handler with
the configured literal UHD stores UHD, not the raw match 4k. -/
theorem nonempty_literal_value_overrides_witness :
    lookupR (uhdValueH "ab 4k".toList [] []).2.1 "res2" = some "UHD".toList := by
  rw [show (uhdValueH "ab 4k".toList [] []).2.1 = [("res2", "UHD".toList)] from by decide]
  exact nonempty_literal_value_overrides "res2" (literalMatcher "4k".toList) idT
    { DEFAULT_OPTIONS with value := some "UHD".toList } "ab 4k".toList [] []
    { rawMatch := "4k".toList, matchIndex := 3, remove := false, skipFromTitle := false }
    [("res2", "UHD".toList)] [("res2", { rawMatch := "4k".toList, matchIndex := 3 })]
    "UHD".toList rfl rfl (by decide)

/-- C8: for a call that supplies a string name, addHandler throws the
configuration error exactly when the matcher argument is neither a regular
expression nor a callable, and returns a registered handler otherwise (the
embedded parse is a total function, so registration is the only error
source). -/
theorem addHandler_error_iff_bad_matcher (s : String) (marg : MatcherArg)
    (targ : TransformerArg) (oarg : OptionsArg) :
    ((∃ e, addHandler (.str s) marg targ oarg = .err e) ↔ matcherAcceptable marg = false) ∧
    (matcherAcceptable marg = true → ∃ h, addHandler (.str s) marg targ oarg = .ok h) := by
  cases marg with
  | regexp m => exact ⟨by simp [addHandler, matcherAcceptable], fun _ => ⟨_, rfl⟩⟩
  | fn f => exact ⟨by simp [addHandler, matcherAcceptable], fun _ => ⟨_, rfl⟩⟩
  | undef => exact ⟨by simp [addHandler, matcherAcceptable], by simp [matcherAcceptable]⟩
  | other ty => exact ⟨by simp [addHandler, matcherAcceptable], by simp [matcherAcceptable]⟩

/-- C8, witness: registering a regular expression under a string name
succeeds. -/
theorem addHandler_error_iff_bad_matcher_witness :
    ∃ h, addHandler (.str "year") (.regexp (literalMatcher ['x'])) .undef .undef = .ok h :=
  (addHandler_error_iff_bad_matcher "year" (.regexp (literalMatcher ['x'])) .undef .undef).2 rfl

/-- C9: with no handlers registered, parse of Movie.Name.2020.1080p-GROUP
returns the title Movie Name 2020 1080p-GROUP: the slice contains no space
but contains dots, so dots become spaces, and nothing is stripped. -/
theorem parse_dotted_release_name :
    parse [] "Movie.Name.2020.1080p-GROUP".toList =
      [("title", "Movie Name 2020 1080p-GROUP".toList)] := by decide

/-- C10: for every handler list and input the returned map's title entry is
the sanitizer applied to the working-title slice up to the end boundary; in
particular any value a handler stored under title is overwritten. -/
theorem title_entry_is_sanitized_slice (hs : List Handler) (rawTitle : JStr) :
    lookupR (parse hs rawTitle) "title" =
      some (cleanTitle (jsSliceUpTo (parseLoop hs (initState rawTitle)).title
        (parseLoop hs (initState rawTitle)).endOfTitle)) := by
  unfold parse
  exact lookupR_setR_self _ _ _

end PTT
